import Mathlib

/-!
Verification of the document-processing and semantic-chunking pipeline.

This file gives a shallow embedding, in Lean 4, of the parts of the code base
that the verified properties are about:

* `semanticChunk/contentSplit.py` : the split-merging algorithm
  (`mergeSpitsIntoChunk`) with its thresholds;
* `docProcess/docIntelligElementTools.py` : element ordering
  (`order_element_info_list`) and the section-hierarchy expansion
  (`get_section_heirarchy` / `_get_section_heirarchy`);
* `docProcess/elementProcess/elementTools.py` : span containment and the
  formula/barcode placeholder substitution;
* `docProcess/elementProcess/pageProcessor.py` : `PageSpanCalculator`;
* `docProcess/azureDocIntelligResultPostProcessor.py` : the per-element
  processing loop of `process_analyze_result`.

Python integers are modelled as `Int` (or `Nat` for token counts, which are
lengths and hence non-negative), fallible code returns `Option`/`Except`, and
Python dictionaries (insertion ordered, overwriting) are modelled as
association lists with in-place update.
-/

namespace SlmKb

/-! ## semanticChunk/contentSplit.py -/

/-- A split produced by the markdown header splitter: its token count and its
text content (mirrors the `SplitResult` data model). -/
structure SplitResult where
  tokens : Nat
  content : String
  deriving Repr, DecidableEq

/-- A merged chunk (mirrors the `MergedChunk` data model). -/
structure MergedChunk where
  splits : String
  totalTokens : Nat
  note : String
  deriving Repr, DecidableEq

/-- Default of env var `SPIPPETS_SIZE` ("600"). -/
def SPIPPETS_SIZE : Nat := 600

/-- Default of env var `CHUNK_MIN_SIZE` ("1000"). -/
def CHUNK_MIN_SIZE : Nat := 1000

/-- Default of env var `CHUNK_MAX_SIZE` ("1400"). -/
def CHUNK_MAX_SIZE : Nat := 1400

/-- The inner `while` loop of `mergeSpitsIntoChunk`: starting from an
accumulated content/token pair, keep absorbing following splits while the
running total is below `CHUNK_MAX_SIZE`; a split that pushes the total to
`CHUNK_MAX_SIZE` or beyond is still absorbed when it alone is below
`SPIPPETS_SIZE` or when the total before it was below `SPIPPETS_SIZE`
(in the source: `(combinedTokens - currentSplitTokens) < SPIPPETS_SIZE`, and
`combinedTokens - currentSplitTokens` equals the total before absorbing);
otherwise it is backed out and the chunk closes.  Returns the accumulated
content, the accumulated token count, and the unconsumed suffix. -/
def combineSplits (c : String) (t : Nat) :
    List SplitResult → String × Nat × List SplitResult
  | [] => (c, t, [])
  | s :: rest =>
    if t < CHUNK_MAX_SIZE then
      if t + s.tokens < CHUNK_MAX_SIZE ∨ s.tokens < SPIPPETS_SIZE ∨
          t < SPIPPETS_SIZE then
        combineSplits (c ++ "\n" ++ s.content) (t + s.tokens) rest
      else (c, t, s :: rest)
    else (c, t, s :: rest)

/-- `combineSplits` only consumes splits: the unconsumed suffix is never longer
than the input list. -/
theorem combineSplits_length_le (c : String) (t : Nat) (l : List SplitResult) :
    (combineSplits c t l).2.2.length ≤ l.length := by
  induction l generalizing c t with
  | nil => simp [combineSplits]
  | cons s rest ih =>
    simp only [combineSplits]
    split
    · split
      · exact Nat.le_trans (ih _ _) (Nat.le_succ _)
      · exact Nat.le_refl _
    · exact Nat.le_refl _

/-- The outer `while` loop of `mergeSpitsIntoChunk`: a split whose token count
reaches `CHUNK_MIN_SIZE` is emitted as its own chunk; otherwise consecutive
splits are accumulated by `combineSplits` and emitted as one chunk.  The
`note` string is the one the source attaches in both branches. -/
def mergeOuterLoop : List SplitResult → List MergedChunk
  | [] => []
  | s :: rest =>
    if CHUNK_MIN_SIZE ≤ s.tokens then
      ⟨s.content, s.tokens, "it is bigger than chunk min size,keep as is"⟩ ::
        mergeOuterLoop rest
    else
      match h : combineSplits s.content s.tokens rest with
      | (c, t, rest2) =>
        ⟨c, t, "it is bigger than chunk min size,keep as is"⟩ ::
          mergeOuterLoop rest2
termination_by l => l.length
decreasing_by
  all_goals simp only [List.length_cons]
  · omega
  · have hlen := combineSplits_length_le s.content s.tokens rest
    rw [h] at hlen
    simp only [] at hlen
    omega

/-- `mergeSpitsIntoChunk`: run the outer merge loop, then perform the final
backward-merge step, which the source writes as an unconditional
`mergedChunkList.pop()` followed by a conditional merge-and-append.  `pop` on
an empty list raises `IndexError`, modelled as `none`.  Note that when the
popped last chunk has `totalTokens ≥ CHUNK_MIN_SIZE` the source never appends
it back, so it is dropped from the returned list. -/
def mergeSpitsIntoChunk (splitResult : List SplitResult) :
    Option (List MergedChunk) :=
  let mergedChunkList := mergeOuterLoop splitResult
  match mergedChunkList.reverse with
  | [] => none
  | lastMergedChunk :: revRest =>
    if lastMergedChunk.totalTokens < CHUNK_MIN_SIZE then
      match revRest with
      | [] => none
      | secondLastMergedChunk :: revRest2 =>
        some ((⟨secondLastMergedChunk.splits ++ lastMergedChunk.splits,
                secondLastMergedChunk.totalTokens + lastMergedChunk.totalTokens,
                secondLastMergedChunk.note⟩ :: revRest2).reverse)
    else some revRest.reverse

/-- Concatenation of the contents of a list of merged chunks, in order. -/
def chunkContentConcat (l : List MergedChunk) : String :=
  String.join (l.map MergedChunk.splits)

/-- Concatenation of the contents of a list of splits, in order. -/
def splitContentConcat (l : List SplitResult) : String :=
  String.join (l.map SplitResult.content)

/-! ## Spans (azure.ai.documentintelligence DocumentSpan and elementInfo.py) -/

/-- A Document Intelligence span: character offset and length in the flat
offset space of the document. -/
structure DocumentSpan where
  offset : Int
  length : Int
  deriving Repr, DecidableEq

/-- Outer bounds of a span; the source dataclass calls the second field
`end`, which is a reserved word in Lean, so it is named `endOffset` here. -/
structure SpanBounds where
  offset : Int
  endOffset : Int
  deriving Repr, DecidableEq

/-- `is_span_in_span` from `elementProcess/elementTools.py`: containment of a
span in a parent span. -/
def is_span_in_span (span : DocumentSpan) (parent_span : DocumentSpan) : Bool :=
  span.offset ≥ parent_span.offset &&
    span.offset + span.length ≤ parent_span.offset + parent_span.length

/-- `get_min_and_max_span_bounds`: min of offsets and max of ends over a list
of spans.  Python `min`/`max` raise `ValueError` on an empty sequence,
modelled by `none`. -/
def get_min_and_max_span_bounds (spans : List DocumentSpan) :
    Option SpanBounds :=
  match (spans.map DocumentSpan.offset).min?,
      (spans.map (fun s => s.offset + s.length)).max? with
  | some mn, some mx => some ⟨mn, mx⟩
  | _, _ => none

/-- `document_span_to_span_bounds` from `docIntelligElementTools.py`. -/
def document_span_to_span_bounds (span : DocumentSpan) : SpanBounds :=
  ⟨span.offset, span.offset + span.length⟩

/-! ## Placeholder substitution (elementProcess/elementTools.py) -/

/-- A Document Intelligence formula: its span and LaTeX value (only the
fields the processing code reads). -/
structure DIFormula where
  span : DocumentSpan
  value : String
  deriving Repr, DecidableEq

/-- A Document Intelligence barcode: span, value and kind (only the fields
the processing code reads; `kind` is its string value). -/
structure DIBarcode where
  span : DocumentSpan
  value : String
  kind : String
  deriving Repr, DecidableEq

/-- `latex_to_text`: the source feeds the LaTeX string through the external
`pylatexenc` converter and strips whitespace (Python `.strip()`, modelled as
dropping whitespace from both ends).  The external converter is modelled as
the identity; no verified property depends on the rendered text. -/
def latex_to_text (latex_str : String) : String :=
  String.mk
    (((latex_str.toList.dropWhile Char.isWhitespace).reverse.dropWhile
        Char.isWhitespace).reverse)

/-- Scanner behind `findMatchBounds`: walk the text one character at a time
carrying the current index and, after a match, the number of characters still
belonging to the match (so matches never overlap, as with `re.finditer`):
while `skip` is positive no new match may start. -/
def findMatchBoundsGo (p : List Char) :
    List Char → Nat → Nat → List (Nat × Nat)
  | [], _, _ => []
  | _ :: rest, i, skip + 1 => findMatchBoundsGo p rest (i + 1) skip
  | c :: rest, i, 0 =>
    if p ≠ [] ∧ p.isPrefixOf (c :: rest) then
      (i, i + p.length) :: findMatchBoundsGo p rest (i + 1) (p.length - 1)
    else
      findMatchBoundsGo p rest (i + 1) 0

/-- The list of `(match.start(), match.end())` bounds produced by
`re.finditer` for a literal pattern: non-overlapping matches found left to
right, resuming after each match.  The pattern is never empty at the call
sites (`":formula:"`, `":barcode:"`). -/
def findMatchBounds (p : List Char) (s : List Char) (i : Nat) :
    List (Nat × Nat) :=
  findMatchBoundsGo p s i 0

/-- Whether a literal pattern occurs in a string (the Python `pat in content`
test), expressed through the same matcher the substitution uses. -/
def hasPlaceholder (pat : String) (content : String) : Bool :=
  !(findMatchBounds pat.toList content.toList 0).isEmpty

/-- Errors that element processing can raise (the `ValueError`s of
`substitute_content_formulas`/`substitute_content_barcodes` and the
`NotImplementedError` of the element dispatch). -/
inductive PError where
  | formulaCountMismatch
  | barcodeCountMismatch
  | elementNotImplemented
  deriving Repr, DecidableEq

/-- Core of both substitution functions: walk the `(bounds, replacement)`
pairs keeping the index after the previous match, copying the literal text
between matches and appending each replacement text; the `mb.1 = last` branch
of the source appends no literal text, which coincides with copying the empty
slice, and both branches are kept.  Characters of the content are supplied as
a list; returns the rebuilt prefix and the resume index. -/
def substFold (cs : List Char) (pairs : List ((Nat × Nat) × String)) :
    List Char × Nat :=
  pairs.foldl
    (fun acc mbr =>
      if mbr.1.1 = acc.2 then
        (acc.1 ++ mbr.2.toList, mbr.1.2)
      else
        (acc.1 ++ ((cs.drop acc.2).take (mbr.1.1 - acc.2)) ++ mbr.2.toList,
          mbr.1.2))
    ([], 0)

/-- `substitute_content_formulas`: find all `":formula:"` placeholder bounds,
fail when their count differs from the number of matching formulas, otherwise
replace each placeholder left to right with the rendered formula value. -/
def substitute_content_formulas (content : String)
    (matching_formulas : List DIFormula) : Except PError String :=
  let match_bounds := findMatchBounds ":formula:".toList content.toList 0
  if match_bounds.length ≠ matching_formulas.length then
    .error .formulaCountMismatch
  else
    let cs := content.toList
    let folded := substFold cs
      (match_bounds.zip (matching_formulas.map fun f => latex_to_text f.value))
    .ok (String.mk (folded.1 ++ cs.drop folded.2))

/-- The replacement text for one barcode:
`*Barcode value:* VALUE (*Barcode kind:* KIND)`. -/
def barcodeReplacementText (b : DIBarcode) : String :=
  "*Barcode value:* " ++ b.value ++ " (*Barcode kind:* " ++ b.kind ++ ")"

/-- `substitute_content_barcodes`: the barcode analogue of
`substitute_content_formulas`. -/
def substitute_content_barcodes (content : String)
    (matching_barcodes : List DIBarcode) : Except PError String :=
  let match_bounds := findMatchBounds ":barcode:".toList content.toList 0
  if match_bounds.length ≠ matching_barcodes.length then
    .error .barcodeCountMismatch
  else
    let cs := content.toList
    let folded := substFold cs
      (match_bounds.zip (matching_barcodes.map barcodeReplacementText))
    .ok (String.mk (folded.1 ++ cs.drop folded.2))

/-- `get_formulas_in_spans`: all formulas whose own span is contained in one
of the given spans, accumulated per span in order. -/
def get_formulas_in_spans (all_formulas : List DIFormula)
    (spans : List DocumentSpan) : List DIFormula :=
  spans.foldl
    (fun acc span => acc ++ all_formulas.filter fun f =>
      is_span_in_span f.span span)
    []

/-- `get_barcodes_in_spans`: the barcode analogue. -/
def get_barcodes_in_spans (all_barcodes : List DIBarcode)
    (spans : List DocumentSpan) : List DIBarcode :=
  spans.foldl
    (fun acc span => acc ++ all_barcodes.filter fun b =>
      is_span_in_span b.span span)
    []

/-- `replace_content_formulas_and_barcodes`: substitute formulas when a
`":formula:"` placeholder occurs, then barcodes when a `":barcode:"`
placeholder occurs in the (possibly already substituted) content. -/
def replace_content_formulas_and_barcodes (content : String)
    (content_spans : List DocumentSpan) (all_formulas : List DIFormula)
    (all_barcodes : List DIBarcode) : Except PError String := do
  let content ←
    if hasPlaceholder ":formula:" content then
      substitute_content_formulas content
        (get_formulas_in_spans all_formulas content_spans)
    else
      pure content
  let content ←
    if hasPlaceholder ":barcode:" content then
      substitute_content_barcodes content
        (get_barcodes_in_spans all_barcodes content_spans)
    else
      pure content
  return content

/-! ## Section hierarchy (docIntelligElementTools.py) -/

/-- Insertion-ordered dictionary update: overwrite the value in place when
the key is present, otherwise append the new pair (Python `dict` assignment
semantics). -/
def insertAssoc {α : Type} (l : List (Nat × α)) (k : Nat) (v : α) :
    List (Nat × α) :=
  match l with
  | [] => [(k, v)]
  | (k2, v2) :: rest =>
    if k2 = k then (k, v) :: rest else (k2, v2) :: insertAssoc rest k v

/-- One iteration of the `for child_id in
section_direct_children_mapper[current_id]` loop of `_get_section_heirarchy`:
recurse (through `recurse`, the expansion at the remaining depth) into a
child different from the current id and merge the child chains into the
output dict, prefixing the current id.  A raised exception (`none` or
`.error`) is sticky, as the Python loop stops at the first exception. -/
def sectionChildStep
    (recurse : Nat → Option (Except Unit (List (Nat × List Nat))))
    (current_id : Nat)
    (acc : Option (Except Unit (List (Nat × List Nat))))
    (child_id : Nat) : Option (Except Unit (List (Nat × List Nat))) :=
  match acc with
  | none => none
  | some (.error e) => some (.error e)
  | some (.ok output) =>
    if current_id ≠ child_id then
      match recurse child_id with
      | none => none
      | some (.error e) => some (.error e)
      | some (.ok children_heirarchy) =>
        some (.ok (children_heirarchy.foldl
          (fun acc2 p => insertAssoc acc2 p.1 (current_id :: p.2))
          output))
    else some (.ok output)

/-- `_get_section_heirarchy`: recursive depth-first expansion of a section id
into the chains of all sections reachable through the direct-children mapper.
The only guard in the source is `if current_id != child_id`; no set of
visited ids exists.  Python recursion has no fuel, so the first `Nat`
argument bounds the recursion depth: `none` means that the bound was
exhausted, i.e. the Python original recurses deeper than the given bound (for
every bound, on a cyclic mapper); `some (.error ())` models the `KeyError` of
`section_direct_children_mapper[current_id]`; `some (.ok h)` is the returned
dict of chains.  The `for child_id in ...` loop is a fold of
`sectionChildStep` over the children. -/
def getSectionHeirarchyAux (m : List (Nat × List Nat)) :
    Nat → Nat → Option (Except Unit (List (Nat × List Nat)))
  | 0, _ => none
  | fuel + 1, current_id =>
    match m.lookup current_id with
    | none => some (.error ())
    | some children =>
      children.foldl
        (sectionChildStep (getSectionHeirarchyAux m fuel) current_id)
        (some (.ok [(current_id, [current_id])]))

/-- `get_section_heirarchy`: repeatedly expand the smallest id still missing
from the accumulated hierarchy until every key of the mapper is covered, then
sort the items by key.  The outer `while missing_ids` loop is driven by the
same fuel discipline; the source loop consumes at least one missing id per
iteration, so fuel `m.length + 1` is the faithful budget used by
`get_section_heirarchy`. -/
def getSectionHeirarchyOuter (m : List (Nat × List Nat)) (recFuel : Nat) :
    Nat → List Nat → List (Nat × List Nat) →
    Option (Except Unit (List (Nat × List Nat)))
  | 0, _, _ => none
  | _, [], full => some (.ok (full.mergeSort fun a b => a.1 ≤ b.1))
  | fuel + 1, missing, full =>
    match missing.min? with
    | none => some (.ok (full.mergeSort fun a b => a.1 ≤ b.1))
    | some next_id =>
      match getSectionHeirarchyAux m recFuel next_id with
      | none => none
      | some (.error e) => some (.error e)
      | some (.ok branch) =>
        let full := branch.foldl (fun acc p => insertAssoc acc p.1 p.2) full
        getSectionHeirarchyOuter m recFuel fuel
          ((m.map Prod.fst).filter fun i => (full.lookup i).isNone) full

/-- Entry point of `get_section_heirarchy` with the faithful fuel budgets:
the outer loop runs at most once per key and the recursion of a terminating
run never nests deeper than the number of keys plus one. -/
def get_section_heirarchy (m : List (Nat × List Nat)) (recFuel : Nat) :
    Option (Except Unit (List (Nat × List Nat))) :=
  getSectionHeirarchyOuter m recFuel (m.length + 1) (m.map Prod.fst) []

/-- The termination property claimed for the depth-first expansion: some
recursion-depth budget suffices for `_get_section_heirarchy` to return (with
a value or a `KeyError`) on the given mapper and start id. -/
def SectionExpansionTerminates (m : List (Nat × List Nat))
    (current_id : Nat) : Prop :=
  ∃ fuel, getSectionHeirarchyAux m fuel current_id ≠ none

/-! ## Element model and ordering (docIntelligElementTools.py) -/

/-- The Document Intelligence element classes that can appear in an
`ElementInfo` built by `get_element_span_info_list` (the `section` and `list`
names are reserved words in Lean, hence `sectionElement` and `documentList`).
Elements whose processors read text content carry it as payload, together
with the per-part spans for key/value pairs; formatting-only details of the
original classes are not needed by any verified property. -/
inductive DIElement where
  | page (page_number : Int)
  | sectionElement
  | table (content : String)
  | figure (content : String)
  | selectionMark
  | paragraph (content : String)
  | line (content : String)
  | word (content : String)
  | keyValuePair (key_content : String) (key_spans : List DocumentSpan)
      (value_content : String) (value_spans : List DocumentSpan)
  | genericDocument
  | documentList
  deriving Repr, DecidableEq

/-- The element class, as a plain tag (`type(x.element)` in the source). -/
inductive DIElementType where
  | page
  | sectionElement
  | table
  | figure
  | selectionMark
  | paragraph
  | line
  | word
  | keyValuePair
  | genericDocument
  | documentList
  deriving Repr, DecidableEq

/-- Tag of an element. -/
def DIElement.elType : DIElement → DIElementType
  | .page _ => .page
  | .sectionElement => .sectionElement
  | .table _ => .table
  | .figure _ => .figure
  | .selectionMark => .selectionMark
  | .paragraph _ => .paragraph
  | .line _ => .line
  | .word _ => .word
  | .keyValuePair _ _ _ _ => .keyValuePair
  | .genericDocument => .genericDocument
  | .documentList => .documentList

/-- `ElementInfo` from `elementProcess/elementInfo.py`. -/
structure ElementInfo where
  element_id : String
  element : DIElement
  full_span_bounds : SpanBounds
  spans : List DocumentSpan
  start_page_number : Int
  section_heirarchy_incremental_id : Option (List Nat)
  deriving Repr, DecidableEq

/-- `priority_mapper` of `order_element_info_list`: the dict assigning each
element class its ordering priority.  `DocumentList` has no entry; looking it
up raises `KeyError`, modelled by `none`. -/
def priority_mapper : DIElementType → Option Nat
  | .page => some 0
  | .sectionElement => some 1
  | .table => some 2
  | .figure => some 2
  | .genericDocument => some 2
  | .keyValuePair => some 2
  | .paragraph => some 3
  | .line => some 4
  | .selectionMark => some 4
  | .word => some 5
  | .documentList => none

/-- The sort key of `order_element_info_list`: `(start_page_number,
full_span_bounds.offset, priority, -full_span_bounds.end)`.  The priority is
only read under the guard that it is defined; `getD 0` never applies then. -/
def elementSortKey (e : ElementInfo) : Int × Int × Nat × Int :=
  (e.start_page_number, e.full_span_bounds.offset,
    (priority_mapper e.element.elType).getD 0, -e.full_span_bounds.endOffset)

/-- Lexicographic order of Python tuple comparison on the sort key. -/
def keyTupleLe (a b : Int × Int × Nat × Int) : Prop :=
  a.1 < b.1 ∨ (a.1 = b.1 ∧
    (a.2.1 < b.2.1 ∨ (a.2.1 = b.2.1 ∧
      (a.2.2.1 < b.2.2.1 ∨ (a.2.2.1 = b.2.2.1 ∧ a.2.2.2 ≤ b.2.2.2)))))

instance (a b : Int × Int × Nat × Int) : Decidable (keyTupleLe a b) := by
  unfold keyTupleLe
  infer_instance

/-- `order_element_info_list`: Python `sorted` (a stable sort) by
`elementSortKey`, modelled with the stable `List.mergeSort`.  Computing the
key of an element whose class has no priority raises `KeyError`, modelled by
`none`. -/
def order_element_info_list (element_span_info_list : List ElementInfo) :
    Option (List ElementInfo) :=
  if element_span_info_list.all
      (fun e => (priority_mapper e.element.elType).isSome) then
    some (element_span_info_list.mergeSort fun a b =>
      decide (keyTupleLe (elementSortKey a) (elementSortKey b)))
  else
    none

/-! ## PageSpanCalculator (elementProcess/pageProcessor.py) -/

/-- A word on a page; only its span is read by the calculator. -/
structure DIWord where
  span : DocumentSpan
  deriving Repr, DecidableEq

/-- A Document Intelligence page: page number, the page element's own spans,
and its words. -/
structure DIPage where
  page_number : Int
  spans : List DocumentSpan
  words : List DIWord
  deriving Repr, DecidableEq

/-- Failures of `PageSpanCalculator._get_page_span_bounds`: `min`/`max` of an
empty span sequence, and the explicit gap `ValueError`. -/
inductive CalcError where
  | emptySpanSequence
  | pageGap
  deriving Repr, DecidableEq

/-- `insertAssoc` for `Int` keys (dict keyed by page number). -/
def insertIntAssoc {α : Type} (l : List (Int × α)) (k : Int) (v : α) :
    List (Int × α) :=
  match l with
  | [] => [(k, v)]
  | (k2, v2) :: rest =>
    if k2 = k then (k, v) :: rest else (k2, v2) :: insertIntAssoc rest k v

/-- The page-bounds construction loop of `_get_page_span_bounds`: the first
page starts at offset 0; each page's upper bound is the maximum of the hull
of the page element's own spans and the bound of the singleton list holding
the LAST word's span (`page.words[-1].span`), or `-1` when the page has no
words; the next page starts one past that bound.  Bounds are stored in an
insertion-ordered dict keyed by page number. -/
def buildPageSpanBounds :
    List DIPage → Int → List (Int × SpanBounds) →
    Except CalcError (List (Int × SpanBounds))
  | [], _, acc => .ok acc
  | page :: rest, page_start_span, acc =>
    match get_min_and_max_span_bounds page.spans with
    | none => .error .emptySpanSequence
    | some pb =>
      let max_page_bound := pb.endOffset
      let max_word_bound : Int :=
        match page.words.getLast? with
        | some w => w.span.offset + w.span.length
        | none => -1
      let max_bound_across_elements := max max_page_bound max_word_bound
      buildPageSpanBounds rest (max_bound_across_elements + 1)
        (insertIntAssoc acc page.page_number
          ⟨page_start_span, max_bound_across_elements⟩)

/-- The `Check no spans are missed` loop of `_get_page_span_bounds`: walking
the stored bounds in insertion order, each page must start exactly one past
the previous recorded end (the initial `last_end_span` is `-1`). -/
def pageGapCheck : List (Int × SpanBounds) → Int → Except CalcError Unit
  | [], _ => .ok ()
  | (_, b) :: rest, last_end_span =>
    if b.offset ≠ last_end_span + 1 then .error .pageGap
    else pageGapCheck rest b.endOffset

/-- `PageSpanCalculator._get_page_span_bounds`. -/
def get_page_span_bounds (pages : List DIPage) :
    Except CalcError (List (Int × SpanBounds)) := do
  let bounds ← buildPageSpanBounds pages 0 []
  let _ ← pageGapCheck bounds (-1)
  return bounds

/-- The upper bound the SPEC describes for a page: the maximum over the span
ends of the page element and of ALL of that page's words (stated from the
spec text, for comparison with the source's computation). -/
def specPageUpperBound (page : DIPage) : Option Int :=
  ((page.spans.map fun s => s.offset + s.length) ++
    (page.words.map fun w => w.span.offset + w.span.length)).max?

/-- The page partition as the SPEC describes it: one interval per page in
page order, the first starting at offset 0, each page's upper bound given by
`specPageUpperBound`, and each following page starting one past the previous
upper bound (stated from the spec text, for comparison with the source). -/
def specPageSpanBounds : List DIPage → Int → Option (List (Int × SpanBounds))
  | [], _ => some []
  | page :: rest, start =>
    match specPageUpperBound page with
    | none => none
    | some upper =>
      match specPageSpanBounds rest (upper + 1) with
      | none => none
      | some tail => some ((page.page_number, ⟨start, upper⟩) :: tail)

/-- The amended upper bound, as the source computes it: the maximum of the
page element's span-hull end and the last word's span end (`-1` when there
are no words). -/
def amendedPageUpperBound (page : DIPage) : Option Int :=
  match get_min_and_max_span_bounds page.spans with
  | none => none
  | some pb =>
    some (max pb.endOffset
      (match page.words.getLast? with
       | some w => w.span.offset + w.span.length
       | none => -1))

/-- The amended page partition: like `specPageSpanBounds` but with the upper
bound taken from `amendedPageUpperBound`. -/
def amendedPageSpanBounds :
    List DIPage → Int → Option (List (Int × SpanBounds))
  | [], _ => some []
  | page :: rest, start =>
    match amendedPageUpperBound page with
    | none => none
    | some upper =>
      match amendedPageSpanBounds rest (upper + 1) with
      | none => none
      | some tail => some ((page.page_number, ⟨start, upper⟩) :: tail)

/-! ## The per-element processing loop of
`DocumentIntelligenceProcessor.process_analyze_result`
(azureDocIntelligResultPostProcessor.py).

The loop receives the ordered `ElementInfo` list together with the
document-wide formulas and barcodes, and emits `OutputUnit`s (the Haystack
documents of the source, abstracted to the fields the verified properties
read: producing element id, class tag, spans, start page, text content and
page start/end marker).  Page images are modelled as always supplied (as when
`doc_page_imgs` covers every page), so exporting a page image cannot fail;
the markdown/role formatting of the individual processors is abstracted while
their substitution calls — the fallible part — are kept. -/

/-- One output document of the processing pass. -/
structure OutputUnit where
  element_id : String
  elType : DIElementType
  spans : List DocumentSpan
  start_page_number : Int
  content : String
  page_location : Option String
  deriving Repr, DecidableEq

/-- Replacement of every non-overlapping occurrence of a pattern, left to
right (Python `str.replace`), walking the text one character at a time; after
a match, the skip counter drops the remaining matched characters. -/
def replaceAllGo (pat repl : List Char) : List Char → Nat → List Char
  | [], _ => []
  | _ :: rest, skip + 1 => replaceAllGo pat repl rest skip
  | c :: rest, 0 =>
    if pat ≠ [] ∧ pat.isPrefixOf (c :: rest) then
      repl ++ replaceAllGo pat repl rest (pat.length - 1)
    else
      c :: replaceAllGo pat repl rest 0

/-- Python `str.replace` on strings. -/
def stringReplace (s pat repl : String) : String :=
  String.mk (replaceAllGo pat.toList repl.toList s.toList 0)

/-- `DefaultSelectionMarkFormatter.format_content`: replace selection-mark
placeholders with their textual replacements. -/
def format_selection_marks (content : String) : String :=
  stringReplace (stringReplace content ":selected:" "[X]") ":unselected:" "[ ]"

/-- `DocumentPageProcessor.convert_page_start`: page-start output units. -/
def convert_page_start (e : ElementInfo) : List OutputUnit :=
  [⟨e.element_id, .page, e.spans, e.start_page_number, "", some "start"⟩]

/-- `DocumentPageProcessor.convert_page_end`: page-end output units. -/
def convert_page_end (e : ElementInfo) : List OutputUnit :=
  [⟨e.element_id, .page, e.spans, e.start_page_number, "", some "end"⟩]

/-- `DocumentSectionProcessor.convert_section`: section heading unit. -/
def convert_section (e : ElementInfo) : List OutputUnit :=
  [⟨e.element_id, .sectionElement, e.spans, e.start_page_number, "", none⟩]

/-- The shared shape of the table/figure/paragraph/line/word processors:
substitute formulas and barcodes in the element's content against the
element's spans, format selection marks, and emit one unit when the formatted
content is distinguishable from the empty-content formatting (the
`formatted_text != formatted_if_null` guard). -/
def convert_text_element (e : ElementInfo) (content : String)
    (all_formulas : List DIFormula) (all_barcodes : List DIBarcode) :
    Except PError (List OutputUnit) := do
  let c ← replace_content_formulas_and_barcodes content e.spans
    all_formulas all_barcodes
  let c := format_selection_marks c
  if c = "" then
    return []
  else
    return [⟨e.element_id, e.element.elType, e.spans, e.start_page_number, c,
      none⟩]

/-- `DocumentKeyValuePairProcessor.convert_kv_pair`: substitute the key and
value contents against their own spans and emit one unit in the default
`*Key Value Pair*: key: value` format unless both parts are empty. -/
def convert_kv_pair (e : ElementInfo) (key_content : String)
    (key_spans : List DocumentSpan) (value_content : String)
    (value_spans : List DocumentSpan) (all_formulas : List DIFormula)
    (all_barcodes : List DIBarcode) : Except PError (List OutputUnit) := do
  let k ← replace_content_formulas_and_barcodes key_content key_spans
    all_formulas all_barcodes
  let k := format_selection_marks k
  let v ← replace_content_formulas_and_barcodes value_content value_spans
    all_formulas all_barcodes
  let v := format_selection_marks v
  if k = "" ∧ v = "" then
    return []
  else
    return [⟨e.element_id, .keyValuePair, e.spans, e.start_page_number,
      "*Key Value Pair*: " ++ k ++ ": " ++ v, none⟩]

/-- The rolling state of the processing loop. -/
structure ProcState where
  full_output_list : List OutputUnit
  current_page_info : Option ElementInfo
  current_section_heirarchy_incremental_id : Option (List Nat)
  current_page_priority_spans : List DocumentSpan
  unprocessed_element_counter : Nat
  deriving Repr, DecidableEq

/-- The initial loop state. -/
def initProcState : ProcState := ⟨[], none, none, [], 0⟩

/-- The element classes subject to the skip check: `DocumentKeyValuePair`,
`DocumentParagraph`, `DocumentLine`, `DocumentWord`. -/
def isLowPriorityType (t : DIElementType) : Bool :=
  match t with
  | .keyValuePair => true
  | .paragraph => true
  | .line => true
  | .word => true
  | _ => false

/-- The error-handling policy of `process_analyze_result`. -/
inductive OnError where
  | ignore
  | raise
  deriving Repr, DecidableEq

/-- Result of processing one element: the state after the iteration (the
mutations that precede an exception persist, as in the source), the raised
error if any, and whether control reached the `break_after_element_idx`
check (only the fall-through path after a successful span claim does;
`continue` paths and exceptions bypass it). -/
structure StepResult where
  state : ProcState
  err : Option PError
  reached_break_check : Bool
  deriving Repr, DecidableEq

/-- The skip check of the loop body: a low-priority element is skipped when
any of its spans is contained in any claimed span. -/
def skipCheckHit (s : ProcState) (e : ElementInfo) : Bool :=
  isLowPriorityType e.element.elType &&
    e.spans.any fun element_span =>
      s.current_page_priority_spans.any fun processed_span =>
        is_span_in_span element_span processed_span

/-- The page-transition block of the loop body: when the element starts on a
later page than the current page info, emit the previous page's closing units
and prune the claimed spans, keeping those whose span START offset exceeds
the previous page's full-span end — the source filters on
`document_span_to_span_bounds(span).offset`. -/
def applyPageTransition (s : ProcState) (e : ElementInfo) : ProcState :=
  match s.current_page_info with
  | some cur =>
    if e.start_page_number > cur.start_page_number then
      { s with
        full_output_list := s.full_output_list ++ convert_page_end cur,
        current_page_priority_spans :=
          s.current_page_priority_spans.filter fun span =>
            (document_span_to_span_bounds span).offset >
              cur.full_span_bounds.endOffset }
    else s
  | none => s

/-- The per-class dispatch of the loop body: sections update the numbering
and claim nothing; pages update the current page info and claim nothing;
selection marks are skipped; tables, figures, paragraphs, lines, words and
key/value pairs emit their converted units and then claim their spans;
unsupported classes bump the unprocessed counter and raise
`NotImplementedError`. -/
def dispatchElement (all_formulas : List DIFormula)
    (all_barcodes : List DIBarcode) (s : ProcState) (e : ElementInfo) :
    StepResult :=
  match e.element with
  | .sectionElement =>
    ⟨{ s with
        current_section_heirarchy_incremental_id :=
          e.section_heirarchy_incremental_id,
        full_output_list := s.full_output_list ++ convert_section e },
      none, false⟩
  | .page _ =>
    ⟨{ s with
        current_page_info := some e,
        full_output_list := s.full_output_list ++ convert_page_start e },
      none, false⟩
  | .selectionMark => ⟨s, none, false⟩
  | .table content | .figure content | .paragraph content
  | .line content | .word content =>
    match convert_text_element e content all_formulas all_barcodes with
    | .ok units =>
      ⟨{ s with
          full_output_list := s.full_output_list ++ units,
          current_page_priority_spans :=
            s.current_page_priority_spans ++ e.spans },
        none, true⟩
    | .error err => ⟨s, some err, false⟩
  | .keyValuePair kc ks vc vs =>
    match convert_kv_pair e kc ks vc vs all_formulas all_barcodes with
    | .ok units =>
      ⟨{ s with
          full_output_list := s.full_output_list ++ units,
          current_page_priority_spans :=
            s.current_page_priority_spans ++ e.spans },
        none, true⟩
    | .error err => ⟨s, some err, false⟩
  | .genericDocument | .documentList =>
    ⟨{ s with
        unprocessed_element_counter := s.unprocessed_element_counter + 1 },
      some .elementNotImplemented, false⟩

/-- One iteration of the element loop: the skip check, then the
page-transition block, then the dispatch.  The state mutations of the
transition block persist even when the dispatch raises, exactly as the
corresponding statements of the source have already run when the exception
is thrown. -/
def processOneElement (all_formulas : List DIFormula)
    (all_barcodes : List DIBarcode) (s : ProcState) (e : ElementInfo) :
    StepResult :=
  if skipCheckHit s e then
    ⟨s, none, false⟩
  else
    dispatchElement all_formulas all_barcodes (applyPageTransition s e) e

/-- The element loop: process each element in order; an exception aborts the
pass under the `raise` policy and is swallowed under `ignore`; after a
successful span claim, processing breaks once the element index passes
`break_after_element_idx`. -/
def processLoop (all_formulas : List DIFormula)
    (all_barcodes : List DIBarcode) (on_error : OnError)
    (break_after_element_idx : Option Nat) :
    ProcState → List ElementInfo → Nat → Except PError ProcState
  | s, [], _ => .ok s
  | s, e :: rest, element_idx =>
    let r := processOneElement all_formulas all_barcodes s e
    match r.err with
    | some err =>
      match on_error with
      | .raise => .error err
      | .ignore =>
        processLoop all_formulas all_barcodes on_error
          break_after_element_idx r.state rest (element_idx + 1)
    | none =>
      match break_after_element_idx with
      | some b =>
        if r.reached_break_check && decide (element_idx > b) then
          .ok r.state
        else
          processLoop all_formulas all_barcodes on_error
            break_after_element_idx r.state rest (element_idx + 1)
      | none =>
        processLoop all_formulas all_barcodes on_error
          break_after_element_idx r.state rest (element_idx + 1)

/-- The element-processing part of `process_analyze_result`: run the loop on
the ordered element list from the initial state, then append the final
page-end units when a page was opened. -/
def process_elements (all_formulas : List DIFormula)
    (all_barcodes : List DIBarcode) (on_error : OnError)
    (break_after_element_idx : Option Nat)
    (ordered_element_span_info_list : List ElementInfo) :
    Except PError (List OutputUnit) :=
  match processLoop all_formulas all_barcodes on_error
      break_after_element_idx initProcState
      ordered_element_span_info_list 0 with
  | .error err => .error err
  | .ok s =>
    match s.current_page_info with
    | some cur => .ok (s.full_output_list ++ convert_page_end cur)
    | none => .ok s.full_output_list

/-- Two output units cover overlapping offset ranges: some span of one and
some span of the other overlap as half-open ranges `[offset, offset+length)`. -/
def unitsOverlap (u1 u2 : OutputUnit) : Prop :=
  ∃ s1 ∈ u1.spans, ∃ s2 ∈ u2.spans,
    s1.offset < s2.offset + s2.length ∧ s2.offset < s1.offset + s1.length

instance (u1 u2 : OutputUnit) : Decidable (unitsOverlap u1 u2) := by
  unfold unitsOverlap
  infer_instance

/-! ## Properties of the processing loop used in the verified statements -/

/-- The element list is weakly sorted by start page number (the first
component of the sort key of `order_element_info_list`). -/
def SortedByStartPage (l : List ElementInfo) : Prop :=
  l.Pairwise fun a b => a.start_page_number ≤ b.start_page_number

instance (l : List ElementInfo) : Decidable (SortedByStartPage l) := by
  unfold SortedByStartPage
  infer_instance

/-- Every maximal run of elements sharing a start page number opens with a
`Page` element: whenever an element's start page differs from its
predecessor's (`prev` carries the predecessor's start page, `none` at the
head of the list), that element is the page element itself.  This is the
shape `order_element_info_list` produces for consistent documents, where the
page element's key `(page, page_start_offset, 0, ...)` sorts first in its
page group. -/
def pageHeadedGroups : Option Int → List ElementInfo → Bool
  | _, [] => true
  | prev, e :: rest =>
    (decide (prev = some e.start_page_number) ||
      decide (e.element.elType = DIElementType.page)) &&
    pageHeadedGroups (some e.start_page_number) rest

/-- The suppression guarantee between an earlier emitted unit `u1` and a
later emitted unit `u2`: when both are low-priority units starting on the
same page, no span of the later one is contained in any span of the earlier
one. -/
def GoodPair (u1 u2 : OutputUnit) : Prop :=
  isLowPriorityType u1.elType = true → isLowPriorityType u2.elType = true →
  u1.start_page_number = u2.start_page_number →
  ∀ s2 ∈ u2.spans, ∀ s1 ∈ u1.spans, is_span_in_span s2 s1 = false

/-- Loop invariant for the suppression guarantee, relative to the start page
`p` of the last consumed element (`none` before the first element): low
priority units were all emitted on pages up to `p`; those emitted on page `p`
still have all their spans claimed; the emitted list is pairwise good; and
the current page info is a page-`p` element. -/
def ProcInv (s : ProcState) : Option Int → Prop
  | none => s = initProcState
  | some pv =>
    (∀ u ∈ s.full_output_list, isLowPriorityType u.elType = true →
      u.start_page_number ≤ pv) ∧
    (∀ u ∈ s.full_output_list, isLowPriorityType u.elType = true →
      u.start_page_number = pv →
      ∀ sp ∈ u.spans, sp ∈ s.current_page_priority_spans) ∧
    s.full_output_list.Pairwise GoodPair ∧
    (∃ cpi, s.current_page_info = some cpi ∧ cpi.start_page_number = pv)

/-! ## Theorems -/

/-- C7: on the four splits with token counts [500, 600, 2000, 300] under
MIN=1000, MAX=1400, SNIPPET=600, `mergeSpitsIntoChunk` returns exactly two
chunks with totals [1100, 2300]: the first combines splits 1 and 2, the
second is split 3 with split 4 merged backward into it. -/
theorem C7_merge_example_trace :
    mergeSpitsIntoChunk [⟨500, "a"⟩, ⟨600, "b"⟩, ⟨2000, "c"⟩, ⟨300, "d"⟩] =
      some
        [⟨"a\nb", 1100, "it is bigger than chunk min size,keep as is"⟩,
         ⟨"cd", 2300, "it is bigger than chunk min size,keep as is"⟩] := by
  norm_num [mergeSpitsIntoChunk, mergeOuterLoop, combineSplits,
    CHUNK_MIN_SIZE, CHUNK_MAX_SIZE, SPIPPETS_SIZE]
  decide

/-- C6 (failing-input evaluation): on splits with token counts
[600, 800, 1000] the function returns normally, yet the final backward-merge
step popped the trailing chunk of 1000 tokens (which is not below MIN) and
never re-appended it, so the returned list ends in a chunk of 800 tokens,
strictly below `CHUNK_MIN_SIZE`. -/
theorem C6_last_chunk_below_min_after_merge_back :
    mergeSpitsIntoChunk [⟨600, "a"⟩, ⟨800, "b"⟩, ⟨1000, "c"⟩] =
      some
        [⟨"a", 600, "it is bigger than chunk min size,keep as is"⟩,
         ⟨"b", 800, "it is bigger than chunk min size,keep as is"⟩] ∧
    800 < CHUNK_MIN_SIZE := by
  refine ⟨?_, by decide⟩
  norm_num [mergeSpitsIntoChunk, mergeOuterLoop, combineSplits,
    CHUNK_MIN_SIZE, CHUNK_MAX_SIZE, SPIPPETS_SIZE]

/-- C8 (failing-input evaluation): on two splits of 1000 and 2000 tokens the
final backward-merge step drops the trailing 2000-token chunk, so the
concatenated content of the returned chunks is "a" while the concatenated
content of the input splits is "ab": content is lost. -/
theorem C8_content_loss_at_dropped_final_chunk :
    mergeSpitsIntoChunk [⟨1000, "a"⟩, ⟨2000, "b"⟩] =
      some [⟨"a", 1000, "it is bigger than chunk min size,keep as is"⟩] ∧
    chunkContentConcat
        [⟨"a", 1000, "it is bigger than chunk min size,keep as is"⟩] ≠
      splitContentConcat [⟨1000, "a"⟩, ⟨2000, "b"⟩] := by
  refine ⟨?_, by decide⟩
  norm_num [mergeSpitsIntoChunk, mergeOuterLoop, combineSplits,
    CHUNK_MIN_SIZE, CHUNK_MAX_SIZE, SPIPPETS_SIZE]

/-- C10: `mergeSpitsIntoChunk` hits `pop` on an empty list — modelled as
`none` — both when the split list is empty and whenever the whole input was
consumed into a single merged chunk whose total token count is below
`CHUNK_MIN_SIZE`. -/
theorem C10_mergeSpitsIntoChunk_pop_failure :
    mergeSpitsIntoChunk [] = none ∧
    ∀ (splitResult : List SplitResult) (c : MergedChunk),
      mergeOuterLoop splitResult = [c] → c.totalTokens < CHUNK_MIN_SIZE →
      mergeSpitsIntoChunk splitResult = none := by
  refine ⟨by norm_num [mergeSpitsIntoChunk, mergeOuterLoop], ?_⟩
  intro splitResult c h1 h2
  simp [mergeSpitsIntoChunk, h1, h2]

/-- Witness for C10 at the concrete input [⟨300, "a"⟩], whose outer merge
loop yields the single chunk ⟨"a", 300⟩ with 300 < 1000. -/
theorem C10_mergeSpitsIntoChunk_pop_failure_witness :
    mergeOuterLoop [⟨300, "a"⟩] =
      [⟨"a", 300, "it is bigger than chunk min size,keep as is"⟩] ∧
    mergeSpitsIntoChunk [⟨300, "a"⟩] = none := by
  have h1 : mergeOuterLoop [⟨300, "a"⟩] =
      [⟨"a", 300, "it is bigger than chunk min size,keep as is"⟩] := by
    norm_num [mergeOuterLoop, combineSplits, CHUNK_MIN_SIZE]
  exact ⟨h1, C10_mergeSpitsIntoChunk_pop_failure.2 _ _ h1 (by decide)⟩

/-- C2 (counterexample): a placeholder/match count mismatch raised during
formula substitution is NOT fatal under the "ignore" policy.  On a document
with one page and one paragraph whose content is the placeholder
`":formula:"` while no formula exists, the error is real — under the "raise"
policy the pass aborts with the mismatch — yet under "ignore" the pass
completes normally, returning only the page start/end units and skipping the
paragraph. -/
theorem C2_mismatch_not_fatal_under_ignore :
    processLoop [] [] .raise none initProcState
        [⟨"/pages/0", .page 1, ⟨0, 100⟩, [⟨0, 100⟩], 1, none⟩,
         ⟨"/paragraphs/0", .paragraph ":formula:", ⟨0, 9⟩, [⟨0, 9⟩], 1, none⟩]
        0 =
      .error .formulaCountMismatch ∧
    process_elements [] [] .ignore none
        [⟨"/pages/0", .page 1, ⟨0, 100⟩, [⟨0, 100⟩], 1, none⟩,
         ⟨"/paragraphs/0", .paragraph ":formula:", ⟨0, 9⟩, [⟨0, 9⟩], 1, none⟩] =
      .ok
        [⟨"/pages/0", .page, [⟨0, 100⟩], 1, "", some "start"⟩,
         ⟨"/pages/0", .page, [⟨0, 100⟩], 1, "", some "end"⟩] := by
  exact ⟨rfl, rfl⟩

/-- C2 (amended): within the per-element loop, the "ignore" policy swallows
every per-element error — including the placeholder/match count mismatches of
formula and barcode substitution and the unknown-element
`NotImplementedError` — so the loop always returns normally; only errors
raised before the loop (page-span gap, image-key mismatch) are fatal
regardless of policy. -/
theorem C2_amended_ignore_loop_never_aborts (all_formulas : List DIFormula)
    (all_barcodes : List DIBarcode) (break_after_element_idx : Option Nat)
    (s : ProcState) (elems : List ElementInfo) (element_idx : Nat) :
    ∃ s2, processLoop all_formulas all_barcodes .ignore
      break_after_element_idx s elems element_idx = .ok s2 := by
  induction elems generalizing s element_idx with
  | nil => exact ⟨s, rfl⟩
  | cons e rest ih =>
    simp only [processLoop]
    cases h : (processOneElement all_formulas all_barcodes s e).err with
    | some err => exact ih _ _
    | none =>
      cases break_after_element_idx with
      | some b =>
        dsimp only
        by_cases hb : ((processOneElement all_formulas all_barcodes s e).reached_break_check
            && decide (element_idx > b)) = true
        · refine ⟨(processOneElement all_formulas all_barcodes s e).state, ?_⟩
          rw [if_pos hb]
        · obtain ⟨s2, hs2⟩ :=
            ih (processOneElement all_formulas all_barcodes s e).state
              (element_idx + 1)
          refine ⟨s2, ?_⟩
          rw [if_neg hb]
          exact hs2
      | none => exact ih _ _

/-- C5 (failing-input evaluation): the pruning at a page transition filters
on each claimed span's START offset, not its end.  With page 1 covering
offsets 0 to 100, a table claiming the span `(offset 0, length 150)` — which
ends at 150, at/after the start (101) of page 2 — and then page 2 arriving,
the claimed-span set after the transition is empty: the span ending inside
the new page was removed, although the claim (and the source's own comment)
says only spans ending before the new page may be pruned. -/
theorem C5_prune_removes_span_ending_after_new_page_start :
    (processLoop [] [] .ignore none initProcState
        [⟨"/pages/0", .page 1, ⟨0, 100⟩, [⟨0, 100⟩], 1, none⟩,
         ⟨"/tables/0", .table "T", ⟨0, 150⟩, [⟨0, 150⟩], 1, none⟩] 0).map
        ProcState.current_page_priority_spans =
      .ok [⟨0, 150⟩] ∧
    (processLoop [] [] .ignore none initProcState
        [⟨"/pages/0", .page 1, ⟨0, 100⟩, [⟨0, 100⟩], 1, none⟩,
         ⟨"/tables/0", .table "T", ⟨0, 150⟩, [⟨0, 150⟩], 1, none⟩,
         ⟨"/pages/1", .page 2, ⟨101, 201⟩, [⟨101, 100⟩], 2, none⟩] 0).map
        ProcState.current_page_priority_spans =
      .ok [] ∧
    (document_span_to_span_bounds ⟨0, 150⟩).endOffset ≥ 101 := by
  exact ⟨rfl, rfl, by decide⟩

/-- C1 (counterexample): two paragraphs whose spans overlap without either
being contained in the other are both emitted, so the processed output
contains two low-priority units covering overlapping offset ranges. -/
theorem C1_overlapping_paragraph_units_emitted :
    process_elements [] [] .ignore none
        [⟨"/pages/0", .page 1, ⟨0, 100⟩, [⟨0, 100⟩], 1, none⟩,
         ⟨"/paragraphs/0", .paragraph "hello", ⟨0, 10⟩, [⟨0, 10⟩], 1, none⟩,
         ⟨"/paragraphs/1", .paragraph "world", ⟨5, 15⟩, [⟨5, 10⟩], 1, none⟩] =
      .ok
        [⟨"/pages/0", .page, [⟨0, 100⟩], 1, "", some "start"⟩,
         ⟨"/paragraphs/0", .paragraph, [⟨0, 10⟩], 1, "hello", none⟩,
         ⟨"/paragraphs/1", .paragraph, [⟨5, 10⟩], 1, "world", none⟩,
         ⟨"/pages/0", .page, [⟨0, 100⟩], 1, "", some "end"⟩] ∧
    isLowPriorityType DIElementType.paragraph = true ∧
    unitsOverlap ⟨"/paragraphs/0", .paragraph, [⟨0, 10⟩], 1, "hello", none⟩
      ⟨"/paragraphs/1", .paragraph, [⟨5, 10⟩], 1, "world", none⟩ := by
  exact ⟨rfl, rfl, by decide⟩

/-- The lexicographic key comparison is transitive. -/
theorem keyTupleLe_trans (a b c : Int × Int × Nat × Int)
    (hab : keyTupleLe a b) (hbc : keyTupleLe b c) : keyTupleLe a c := by
  obtain ⟨a1, a2, a3, a4⟩ := a
  obtain ⟨b1, b2, b3, b4⟩ := b
  obtain ⟨c1, c2, c3, c4⟩ := c
  simp only [keyTupleLe] at hab hbc ⊢
  omega

/-- The lexicographic key comparison is total. -/
theorem keyTupleLe_total (a b : Int × Int × Nat × Int) :
    keyTupleLe a b ∨ keyTupleLe b a := by
  obtain ⟨a1, a2, a3, a4⟩ := a
  obtain ⟨b1, b2, b3, b4⟩ := b
  simp only [keyTupleLe]
  omega

/-- C9: on every element list whose element classes all have a priority (the
`DocumentList` class is the only one without an entry),
`order_element_info_list` succeeds and sorts ascending by the key
`(start_page_number, full_span_start_offset, priority, -full_span_end_offset)`
with the priorities Page=0, Section=1, Table=Figure=KeyValuePair=Document=2,
Paragraph=3, Line=SelectionMark=4, Word=5: the result is a permutation of the
input, pairwise ordered by the lexicographic key, so within a priority class
elements with equal start offsets but larger end offsets come first. -/
theorem C9_order_element_info_list_sorts (l : List ElementInfo)
    (h : ∀ e ∈ l, e.element.elType ≠ DIElementType.documentList) :
    ∃ r, order_element_info_list l = some r ∧ r.Perm l ∧
      r.Pairwise
        (fun a b => keyTupleLe (elementSortKey a) (elementSortKey b)) ∧
      priority_mapper .page = some 0 ∧
      priority_mapper .sectionElement = some 1 ∧
      priority_mapper .table = some 2 ∧
      priority_mapper .figure = some 2 ∧
      priority_mapper .keyValuePair = some 2 ∧
      priority_mapper .genericDocument = some 2 ∧
      priority_mapper .paragraph = some 3 ∧
      priority_mapper .line = some 4 ∧
      priority_mapper .selectionMark = some 4 ∧
      priority_mapper .word = some 5 := by
  have hall : l.all (fun e => (priority_mapper e.element.elType).isSome) = true := by
    rw [List.all_eq_true]
    intro e he
    have hne := h e he
    cases hx : e.element.elType <;> simp_all [priority_mapper]
  refine ⟨l.mergeSort (fun a b =>
      decide (keyTupleLe (elementSortKey a) (elementSortKey b))),
    ?_, ?_, ?_, rfl, rfl, rfl, rfl, rfl, rfl, rfl, rfl, rfl, rfl⟩
  · simp [order_element_info_list, hall]
  · exact List.mergeSort_perm l _
  · have hs := @List.sorted_mergeSort ElementInfo
      (fun a b : ElementInfo =>
        decide (keyTupleLe (elementSortKey a) (elementSortKey b)))
      (fun a b c hab hbc => by
        simp only [decide_eq_true_eq] at hab hbc ⊢
        exact keyTupleLe_trans _ _ _ hab hbc)
      (fun a b => by
        simp only [Bool.or_eq_true, decide_eq_true_eq]
        exact keyTupleLe_total _ _)
      l
    exact hs.imp fun hab => by simpa using hab

/-- Witness for C9 on a concrete two-element list given in reverse key
order: a word at offset 4 on page 1 and the page-1 element. -/
theorem C9_order_element_info_list_sorts_witness :
    (∀ e ∈ [(⟨"/pages/0/words/0", DIElement.word "w", ⟨4, 8⟩, [⟨4, 4⟩], 1,
        none⟩ : ElementInfo),
      (⟨"/pages/0", DIElement.page 1, ⟨0, 20⟩, [⟨0, 20⟩], 1,
        none⟩ : ElementInfo)],
      e.element.elType ≠ DIElementType.documentList) ∧
    (∃ r, order_element_info_list
        [⟨"/pages/0/words/0", DIElement.word "w", ⟨4, 8⟩, [⟨4, 4⟩], 1, none⟩,
         ⟨"/pages/0", DIElement.page 1, ⟨0, 20⟩, [⟨0, 20⟩], 1, none⟩] =
        some r ∧
      r.Perm
        [⟨"/pages/0/words/0", DIElement.word "w", ⟨4, 8⟩, [⟨4, 4⟩], 1, none⟩,
         ⟨"/pages/0", DIElement.page 1, ⟨0, 20⟩, [⟨0, 20⟩], 1, none⟩] ∧
      r.Pairwise
        (fun a b => keyTupleLe (elementSortKey a) (elementSortKey b)) ∧
      priority_mapper .page = some 0 ∧
      priority_mapper .sectionElement = some 1 ∧
      priority_mapper .table = some 2 ∧
      priority_mapper .figure = some 2 ∧
      priority_mapper .keyValuePair = some 2 ∧
      priority_mapper .genericDocument = some 2 ∧
      priority_mapper .paragraph = some 3 ∧
      priority_mapper .line = some 4 ∧
      priority_mapper .selectionMark = some 4 ∧
      priority_mapper .word = some 5) :=
  ⟨by decide, C9_order_element_info_list_sorts _ (by decide)⟩

/-- C4 (counterexample): on a page whose words are not ordered by span end —
words with spans `(0,10)` (end 10) and `(5,2)` (end 7), page element span
`(0,1)` — the source takes only the LAST word's span end, computing the upper
bound 7, while the claim's maximum over the page element's and ALL words'
span ends is 10. -/
theorem C4_upper_bound_not_max_over_all_words :
    get_page_span_bounds [⟨1, [⟨0, 1⟩], [⟨⟨0, 10⟩⟩, ⟨⟨5, 2⟩⟩]⟩] =
      .ok [(1, ⟨0, 7⟩)] ∧
    specPageSpanBounds [⟨1, [⟨0, 1⟩], [⟨⟨0, 10⟩⟩, ⟨⟨5, 2⟩⟩]⟩] 0 =
      some [(1, ⟨0, 10⟩)] ∧
    (⟨0, 7⟩ : SpanBounds) ≠ ⟨0, 10⟩ := by
  exact ⟨rfl, rfl, by decide⟩

/-- Dict insertion at a key not yet present appends the pair. -/
theorem insertIntAssoc_fresh {α : Type} (l : List (Int × α)) (k : Int)
    (v : α) (h : k ∉ l.map Prod.fst) : insertIntAssoc l k v = l ++ [(k, v)] := by
  induction l with
  | nil => rfl
  | cons p rest ih =>
    obtain ⟨k2, v2⟩ := p
    simp only [List.map_cons, List.mem_cons, not_or] at h
    simp only [insertIntAssoc]
    rw [if_neg (fun hk => h.1 hk.symm), ih h.2]
    rfl

/-- The construction loop of `_get_page_span_bounds` computes the amended
partition, appended after the accumulated dict, as long as no page number
collides with an accumulated key or a later page. -/
theorem buildPageSpanBounds_amended (pages : List DIPage) :
    ∀ (start : Int) (acc : List (Int × SpanBounds))
      (bs : List (Int × SpanBounds)),
      (∀ p ∈ pages, p.page_number ∉ acc.map Prod.fst) →
      (pages.map DIPage.page_number).Nodup →
      amendedPageSpanBounds pages start = some bs →
      buildPageSpanBounds pages start acc = .ok (acc ++ bs) := by
  induction pages with
  | nil =>
    intro start acc bs _ _ hb
    simp only [amendedPageSpanBounds] at hb
    cases hb
    simp [buildPageSpanBounds]
  | cons p rest ih =>
    intro start acc bs hfresh hnodup hb
    simp only [amendedPageSpanBounds, amendedPageUpperBound] at hb
    cases hgm : get_min_and_max_span_bounds p.spans with
    | none => rw [hgm] at hb; cases hb
    | some pb =>
      rw [hgm] at hb
      simp only [] at hb
      cases ht : amendedPageSpanBounds rest
          ((max pb.endOffset
            (match p.words.getLast? with
             | some w => w.span.offset + w.span.length
             | none => -1)) + 1) with
      | none => rw [ht] at hb; cases hb
      | some tail =>
        rw [ht] at hb
        simp only [Option.some.injEq] at hb
        subst hb
        simp only [buildPageSpanBounds, hgm]
        rw [insertIntAssoc_fresh acc p.page_number _
          (hfresh p (List.mem_cons_self _ _))]
        rw [List.map_cons, List.nodup_cons] at hnodup
        rw [ih _ _ _ ?_ hnodup.2 ht]
        · simp
        · intro q hq
          simp only [List.map_append, List.mem_append, List.map_cons,
            List.map_nil, List.mem_singleton, not_or]
          refine ⟨fun hmem => hfresh q (List.mem_cons_of_mem _ hq) hmem, ?_⟩
          intro hqp
          exact hnodup.1 (hqp ▸ List.mem_map_of_mem DIPage.page_number hq)

/-- The amended partition always passes the gap check: each interval starts
exactly one past the previous end. -/
theorem pageGapCheck_amended (pages : List DIPage) :
    ∀ (start : Int) (bs : List (Int × SpanBounds)),
      amendedPageSpanBounds pages start = some bs →
      pageGapCheck bs (start - 1) = .ok () := by
  induction pages with
  | nil =>
    intro start bs hb
    simp only [amendedPageSpanBounds] at hb
    cases hb
    rfl
  | cons p rest ih =>
    intro start bs hb
    simp only [amendedPageSpanBounds] at hb
    cases hu : amendedPageUpperBound p with
    | none => rw [hu] at hb; cases hb
    | some upper =>
      rw [hu] at hb
      simp only [] at hb
      cases ht : amendedPageSpanBounds rest (upper + 1) with
      | none => rw [ht] at hb; cases hb
      | some tail =>
        rw [ht] at hb
        simp only [Option.some.injEq] at hb
        subst hb
        simp only [pageGapCheck]
        rw [if_neg (by omega)]
        have := ih (upper + 1) tail ht
        simpa using this

/-- C4 (amended): for every page list with pairwise distinct page numbers on
which the computation succeeds, `_get_page_span_bounds` returns one interval
per page in page-list order, the first starting at offset 0, each subsequent
page starting one past the previous upper bound, where each page's upper
bound is the maximum of the page element's span-hull end and the LAST word's
span end (or the hull end alone when the page has no words) — i.e. exactly
the partition described by `amendedPageSpanBounds`. -/
theorem C4_amended_get_page_span_bounds (pages : List DIPage)
    (bs : List (Int × SpanBounds))
    (hnodup : (pages.map DIPage.page_number).Nodup)
    (hb : amendedPageSpanBounds pages 0 = some bs) :
    get_page_span_bounds pages = .ok bs := by
  have hbuild := buildPageSpanBounds_amended pages 0 [] bs
    (by intro p _ hmem; simp at hmem) hnodup hb
  have hgap := pageGapCheck_amended pages 0 bs hb
  simp only [List.nil_append] at hbuild
  norm_num at hgap
  simp [get_page_span_bounds, hbuild, hgap, bind, Except.bind, pure, Except.pure]

/-- Witness for C4 on two concrete pages: page 1 with span hull end 5 and no
words, page 2 with span hull end 10 and one word ending at 10. -/
theorem C4_amended_get_page_span_bounds_witness :
    amendedPageSpanBounds
        [⟨1, [⟨0, 5⟩], []⟩, ⟨2, [⟨6, 4⟩], [⟨⟨6, 4⟩⟩]⟩] 0 =
      some [(1, ⟨0, 5⟩), (2, ⟨6, 10⟩)] ∧
    get_page_span_bounds [⟨1, [⟨0, 5⟩], []⟩, ⟨2, [⟨6, 4⟩], [⟨⟨6, 4⟩⟩]⟩] =
      .ok [(1, ⟨0, 5⟩), (2, ⟨6, 10⟩)] :=
  ⟨by decide,
    C4_amended_get_page_span_bounds _ _ (by decide) (by decide)⟩

/-- A successful association-list lookup yields a member pair. -/
theorem mem_of_lookup_eq_some {m : List (Nat × List Nat)} {k : Nat}
    {v : List Nat} (h : m.lookup k = some v) : (k, v) ∈ m := by
  induction m with
  | nil => cases h
  | cons p rest ih =>
    obtain ⟨a, b⟩ := p
    rw [List.lookup] at h
    cases hba : k == a with
    | true =>
      rw [hba] at h
      simp only [] at h
      cases h
      have : k = a := by simpa using hba
      subst this
      exact List.mem_cons_self _ _
    | false =>
      rw [hba] at h
      simp only [] at h
      exact List.mem_cons_of_mem _ (ih h)

/-- A fold of `sectionChildStep` never exhausts the recursion budget when
the accumulator has not and the recursion at the remaining depth does not
exhaust it on any non-self child. -/
theorem foldl_sectionChildStep_ne_none
    (recurse : Nat → Option (Except Unit (List (Nat × List Nat))))
    (current_id : Nat) (cs : List Nat) :
    ∀ acc, acc ≠ none → (∀ c ∈ cs, current_id ≠ c → recurse c ≠ none) →
      cs.foldl (sectionChildStep recurse current_id) acc ≠ none := by
  induction cs with
  | nil => intro acc hacc _; simpa using hacc
  | cons c rest ih =>
    intro acc hacc hcs
    rw [List.foldl_cons]
    apply ih
    · cases acc with
      | none => exact absurd rfl hacc
      | some r =>
        cases r with
        | error e => simp [sectionChildStep]
        | ok output =>
          rw [sectionChildStep]
          by_cases hc : current_id ≠ c
          · rw [if_pos hc]
            cases hr : recurse c with
            | none => exact absurd hr (hcs c (List.mem_cons_self _ _) hc)
            | some r2 => cases r2 <;> simp
          · rw [if_neg hc]
            simp
    · exact fun x hx => hcs x (List.mem_cons_of_mem _ hx)

/-- On the cyclic two-section mapper `{0: [0, 1], 1: [1, 0]}` — each section
listing itself and the other as direct children — the depth-first expansion
exhausts every recursion-depth budget, from either start id. -/
theorem cycle_expansion_exhausts_any_fuel (fuel : Nat) :
    getSectionHeirarchyAux [(0, [0, 1]), (1, [1, 0])] fuel 0 = none ∧
    getSectionHeirarchyAux [(0, [0, 1]), (1, [1, 0])] fuel 1 = none := by
  induction fuel with
  | zero => exact ⟨rfl, rfl⟩
  | succ n ih =>
    constructor
    · simp [getSectionHeirarchyAux, sectionChildStep, ih.2, List.lookup]
    · simp [getSectionHeirarchyAux, sectionChildStep, ih.1, List.lookup]

/-- C3 (counterexample): the depth-first expansion does NOT terminate on
every malformed graph: on the cyclic mapper `{0: [0, 1], 1: [1, 0]}` no
recursion-depth budget suffices — the source, which tracks no visited ids and
only skips a child equal to the current id, recurses forever
(`RecursionError` in Python). -/
theorem C3_cycle_expansion_diverges :
    ¬ SectionExpansionTerminates [(0, [0, 1]), (1, [1, 0])] 0 := by
  rintro ⟨fuel, hf⟩
  exact hf (cycle_expansion_exhausts_any_fuel fuel).1

/-- C3 (amended): the depth-first expansion tracks no visited ids — its only
guard skips a child equal to the current id — so it terminates on monotone
graphs, those whose every child reference is either a self-reference or
points to a strictly larger id not exceeding a bound `B`: recursion depth
`B + 2 - id` always suffices to return a value or a `KeyError`. -/
theorem C3_amended_monotone_expansion_terminates
    (m : List (Nat × List Nat)) (B : Nat)
    (hchild : ∀ p ∈ m, ∀ c ∈ p.2, c ≤ B ∧ (c = p.1 ∨ p.1 < c)) :
    ∀ (fuel current_id : Nat), current_id ≤ B + 1 →
      B + 2 - current_id ≤ fuel →
      getSectionHeirarchyAux m fuel current_id ≠ none := by
  intro fuel
  induction fuel with
  | zero =>
    intro current_id hid hfuel
    omega
  | succ n ih =>
    intro current_id hid hfuel
    rw [getSectionHeirarchyAux]
    cases hlk : m.lookup current_id with
    | none => simp
    | some children =>
      have hch := hchild _ (mem_of_lookup_eq_some hlk)
      simp only []
      apply foldl_sectionChildStep_ne_none
      · simp
      · intro c hc hne
        have hcb := hch c hc
        have hlt : current_id < c := by
          rcases hcb.2 with h1 | h1
          · exact absurd h1.symm hne
          · exact h1
        exact ih c (by omega) (by omega)

/-- Witness for C3 (amended) on the concrete monotone mapper
`{0: [0, 1], 1: [1]}` with bound `B = 1`: depth 3 suffices from id 0. -/
theorem C3_amended_monotone_expansion_terminates_witness :
    (∀ p ∈ [(0, [0, 1]), (1, [1])], ∀ c ∈ p.2,
      c ≤ 1 ∧ (c = p.1 ∨ p.1 < c)) ∧
    0 ≤ 1 + 1 ∧ 1 + 2 - 0 ≤ 3 ∧
    getSectionHeirarchyAux [(0, [0, 1]), (1, [1])] 3 0 ≠ none :=
  ⟨by decide, by decide, by decide,
    C3_amended_monotone_expansion_terminates _ 1 (by decide) 3 0 (by decide)
      (by decide)⟩

/-- Every unit emitted by a successful text-element conversion carries the
element's spans, start page and class tag. -/
theorem convert_text_element_units (e : ElementInfo) (content : String)
    (all_formulas : List DIFormula) (all_barcodes : List DIBarcode)
    (units : List OutputUnit)
    (h : convert_text_element e content all_formulas all_barcodes =
      .ok units) :
    ∀ u ∈ units, u.spans = e.spans ∧
      u.start_page_number = e.start_page_number ∧
      u.elType = e.element.elType := by
  rw [convert_text_element] at h
  cases hr : replace_content_formulas_and_barcodes content e.spans
      all_formulas all_barcodes with
  | error err => rw [hr] at h; cases h
  | ok c =>
    rw [hr] at h
    by_cases hc : format_selection_marks c = ""
    · simp only [hc, Except.bind, bind, if_pos, reduceIte] at h
      cases h
      intro u hu
      cases hu
    · simp only [Except.bind, bind, if_neg hc] at h
      cases h
      intro u hu
      cases hu with
      | head => exact ⟨rfl, rfl, rfl⟩
      | tail _ h2 => cases h2

/-- Every unit emitted by a successful key/value-pair conversion carries the
element's spans, start page and the `keyValuePair` tag. -/
theorem convert_kv_pair_units (e : ElementInfo) (kc : String)
    (ks : List DocumentSpan) (vc : String) (vs : List DocumentSpan)
    (all_formulas : List DIFormula) (all_barcodes : List DIBarcode)
    (units : List OutputUnit)
    (h : convert_kv_pair e kc ks vc vs all_formulas all_barcodes =
      .ok units) :
    ∀ u ∈ units, u.spans = e.spans ∧
      u.start_page_number = e.start_page_number ∧
      u.elType = DIElementType.keyValuePair := by
  rw [convert_kv_pair] at h
  cases hk : replace_content_formulas_and_barcodes kc ks
      all_formulas all_barcodes with
  | error err => rw [hk] at h; cases h
  | ok k =>
    rw [hk] at h
    cases hv : replace_content_formulas_and_barcodes vc vs
        all_formulas all_barcodes with
    | error err => rw [hv] at h; simp only [Except.bind, bind] at h; cases h
    | ok v =>
      rw [hv] at h
      simp only [Except.bind, bind] at h
      by_cases hkv : format_selection_marks k = "" ∧
          format_selection_marks v = ""
      · rw [if_pos hkv] at h
        cases h
        intro u hu
        cases hu
      · rw [if_neg hkv] at h
        cases h
        intro u hu
        cases hu with
        | head => exact ⟨rfl, rfl, rfl⟩
        | tail _ h2 => cases h2

/-- `GoodPair` holds whenever the later unit is not low priority. -/
theorem goodPair_of_not_low_right (u1 u2 : OutputUnit)
    (h : isLowPriorityType u2.elType ≠ true) : GoodPair u1 u2 :=
  fun _ h2 => absurd h2 h

/-- Appending units that are not low priority preserves the pairwise
suppression guarantee. -/
theorem pairwise_goodPair_append_nonlow (outs units : List OutputUnit)
    (h : outs.Pairwise GoodPair)
    (hu : ∀ u ∈ units, isLowPriorityType u.elType ≠ true)
    (hup : units.Pairwise GoodPair) :
    (outs ++ units).Pairwise GoodPair := by
  rw [List.pairwise_append]
  exact ⟨h, hup, fun a _ b hb => goodPair_of_not_low_right a b (hu b hb)⟩

/-- Appending units that are pairwise good against every earlier unit
preserves the pairwise suppression guarantee. -/
theorem pairwise_goodPair_append_cross (outs units : List OutputUnit)
    (h : outs.Pairwise GoodPair)
    (hup : units.Pairwise GoodPair)
    (hcross : ∀ u1 ∈ outs, ∀ u ∈ units, GoodPair u1 u) :
    (outs ++ units).Pairwise GoodPair := by
  rw [List.pairwise_append]
  exact ⟨h, hup, hcross⟩

/-- A successful text-element conversion emits at most one unit. -/
theorem convert_text_element_length (e : ElementInfo) (content : String)
    (all_formulas : List DIFormula) (all_barcodes : List DIBarcode)
    (units : List OutputUnit)
    (h : convert_text_element e content all_formulas all_barcodes =
      .ok units) : units.length ≤ 1 := by
  rw [convert_text_element] at h
  cases hr : replace_content_formulas_and_barcodes content e.spans
      all_formulas all_barcodes with
  | error err => rw [hr] at h; cases h
  | ok c =>
    rw [hr] at h
    by_cases hc : format_selection_marks c = ""
    · simp only [hc, Except.bind, bind, if_pos, reduceIte] at h
      cases h
      decide
    · simp only [Except.bind, bind, if_neg hc] at h
      cases h
      simp

/-- A successful key/value-pair conversion emits at most one unit. -/
theorem convert_kv_pair_length (e : ElementInfo) (kc : String)
    (ks : List DocumentSpan) (vc : String) (vs : List DocumentSpan)
    (all_formulas : List DIFormula) (all_barcodes : List DIBarcode)
    (units : List OutputUnit)
    (h : convert_kv_pair e kc ks vc vs all_formulas all_barcodes =
      .ok units) : units.length ≤ 1 := by
  rw [convert_kv_pair] at h
  cases hk : replace_content_formulas_and_barcodes kc ks
      all_formulas all_barcodes with
  | error err => rw [hk] at h; cases h
  | ok k =>
    rw [hk] at h
    cases hv : replace_content_formulas_and_barcodes vc vs
        all_formulas all_barcodes with
    | error err => rw [hv] at h; simp only [Except.bind, bind] at h; cases h
    | ok v =>
      rw [hv] at h
      simp only [Except.bind, bind] at h
      by_cases hkv : format_selection_marks k = "" ∧
          format_selection_marks v = ""
      · rw [if_pos hkv] at h
        cases h
        decide
      · rw [if_neg hkv] at h
        cases h
        simp

/-- A list of at most one element satisfies any pairwise relation. -/
theorem pairwise_of_length_le_one {α : Type} {R : α → α → Prop}
    (l : List α) (h : l.length ≤ 1) : l.Pairwise R := by
  cases l with
  | nil => exact List.Pairwise.nil
  | cons a rest =>
    cases rest with
    | nil => exact List.pairwise_singleton R a
    | cons b rest2 => simp at h

/-- Core preservation lemma for the dispatch cases that claim their spans:
appending units carrying the element's spans/page/class and then claiming the
element's spans preserves the invariant inside a page group, provided a
low-priority element reaching the dispatch passed the skip check. -/
theorem procInv_dispatch_claiming (s : ProcState) (e : ElementInfo)
    (pv : Int) (hinv : ProcInv s (some pv))
    (heq : e.start_page_number = pv)
    (units : List OutputUnit)
    (hunits : ∀ u ∈ units, u.spans = e.spans ∧
      u.start_page_number = e.start_page_number ∧
      u.elType = e.element.elType)
    (hlen : units.length ≤ 1)
    (hnoskip : isLowPriorityType e.element.elType = true →
      ∀ sp ∈ e.spans, ∀ ps ∈ s.current_page_priority_spans,
        is_span_in_span sp ps = false) :
    ProcInv
      { s with
        full_output_list := s.full_output_list ++ units,
        current_page_priority_spans :=
          s.current_page_priority_spans ++ e.spans } (some pv) := by
  obtain ⟨hI1, hI2, hI3, cpi, hcpi, hcpv⟩ := hinv
  refine ⟨?_, ?_, ?_, cpi, hcpi, hcpv⟩
  · intro u hu hlow
    rcases List.mem_append.mp hu with hmem | hmem
    · exact hI1 u hmem hlow
    · rw [(hunits u hmem).2.1, heq]
  · intro u hu hlow hup sp hsp
    rcases List.mem_append.mp hu with hmem | hmem
    · exact List.mem_append_left _ (hI2 u hmem hlow hup sp hsp)
    · rw [(hunits u hmem).1] at hsp
      exact List.mem_append_right _ hsp
  · apply pairwise_goodPair_append_cross _ _ hI3
      (pairwise_of_length_le_one _ hlen)
    intro u1 h1 u hu hlow1 hlowu hpages s2 hs2 s1 hs1
    obtain ⟨huspans, hupage, hutype⟩ := hunits u hu
    rw [hutype] at hlowu
    rw [huspans] at hs2
    have hclaim : s1 ∈ s.current_page_priority_spans := by
      apply hI2 u1 h1 hlow1 _ s1 hs1
      rw [hpages, hupage, heq]
    exact hnoskip hlowu s2 hs2 s1 hclaim

/-- Appending units that are not low priority (and touching neither the
claimed spans nor the page info) preserves the invariant. -/
theorem procInv_append_nonlow (s : ProcState) (pv : Int)
    (hinv : ProcInv s (some pv)) (units : List OutputUnit)
    (hu : ∀ u ∈ units, isLowPriorityType u.elType ≠ true)
    (hpw : units.Pairwise GoodPair) :
    ProcInv { s with full_output_list := s.full_output_list ++ units }
      (some pv) := by
  obtain ⟨hI1, hI2, hI3, cpi, hcpi, hcpv⟩ := hinv
  refine ⟨?_, ?_, ?_, cpi, hcpi, hcpv⟩
  · intro u hmem hlow
    rcases List.mem_append.mp hmem with hmem | hmem
    · exact hI1 u hmem hlow
    · exact absurd hlow (hu u hmem)
  · intro u hmem hlow hup sp hsp
    rcases List.mem_append.mp hmem with hmem | hmem
    · exact hI2 u hmem hlow hup sp hsp
    · exact absurd hlow (hu u hmem)
  · exact pairwise_goodPair_append_nonlow _ _ hI3 hu hpw

/-- One loop iteration preserves the invariant, moving the group page to the
start page of the consumed element, provided the element list is consistent:
elements never start before the current group page, and an element opening a
new group is a page element. -/
theorem procInv_step (all_formulas : List DIFormula)
    (all_barcodes : List DIBarcode) (s : ProcState) (e : ElementInfo)
    (p : Option Int) (hinv : ProcInv s p)
    (hle : ∀ pv, p = some pv → pv ≤ e.start_page_number)
    (hpage : p ≠ some e.start_page_number →
      e.element.elType = DIElementType.page) :
    ProcInv (processOneElement all_formulas all_barcodes s e).state
      (some e.start_page_number) := by
  by_cases hskip : skipCheckHit s e = true
  · have hstate : (processOneElement all_formulas all_barcodes s e).state = s := by
      simp [processOneElement, hskip]
    rw [hstate]
    have hlow : isLowPriorityType e.element.elType = true :=
      ((Bool.and_eq_true _ _).mp hskip).1
    have hps : p = some e.start_page_number := by
      by_contra hne
      rw [hpage hne] at hlow
      simp [isLowPriorityType] at hlow
    exact hps ▸ hinv
  · have hstate : processOneElement all_formulas all_barcodes s e =
        dispatchElement all_formulas all_barcodes
          (applyPageTransition s e) e := by
      simp [processOneElement, hskip]
    rw [hstate]
    have hnoskip : isLowPriorityType e.element.elType = true →
        ∀ sp ∈ e.spans, ∀ ps ∈ s.current_page_priority_spans,
          is_span_in_span sp ps = false := by
      intro hlow sp hsp ps hps
      rw [skipCheckHit] at hskip
      simp only [hlow, Bool.true_and, Bool.not_eq_true,
        List.any_eq_false] at hskip
      exact hskip sp hsp ps hps
    cases p with
    | none =>
      have hs : s = initProcState := hinv
      subst hs
      have hept : e.element.elType = .page := hpage (by simp)
      have htr : applyPageTransition initProcState e = initProcState := rfl
      rw [htr]
      cases he : e.element <;> rw [he] at hept <;>
        simp only [DIElement.elType] at hept <;> try cases hept
      rename_i pn
      refine ⟨?_, ?_, ?_, e, ?_, rfl⟩
      · intro u hu hlow
        simp only [dispatchElement, he, initProcState, convert_page_start,
          List.nil_append, List.mem_singleton] at hu
        subst hu
        simp [isLowPriorityType] at hlow
      · intro u hu hlow
        simp only [dispatchElement, he, initProcState, convert_page_start,
          List.nil_append, List.mem_singleton] at hu
        subst hu
        simp [isLowPriorityType] at hlow
      · simp only [dispatchElement, he, initProcState, convert_page_start,
          List.nil_append]
        exact List.pairwise_singleton _ _
      · simp [dispatchElement, he]
    | some pv =>
      have hlepv : pv ≤ e.start_page_number := hle pv rfl
      obtain ⟨hI1, hI2, hI3, cpi, hcpi, hcpv⟩ := hinv
      by_cases heq : e.start_page_number = pv
      · -- same page group: the transition does not fire
        have htr : applyPageTransition s e = s := by
          simp only [applyPageTransition, hcpi]
          rw [if_neg (by rw [heq, hcpv]; omega)]
        rw [htr]
        have hinv2 : ProcInv s (some pv) := ⟨hI1, hI2, hI3, cpi, hcpi, hcpv⟩
        rw [heq]
        cases he : e.element with
        | sectionElement =>
          have := procInv_append_nonlow s pv hinv2 (convert_section e)
            (by intro u hu
                simp only [convert_section, List.mem_singleton] at hu
                subst hu
                simp [isLowPriorityType])
            (List.pairwise_singleton _ _)
          simp only [dispatchElement, he]
          obtain ⟨g1, g2, g3, g4⟩ := this
          exact ⟨g1, g2, g3, g4⟩
        | page pn =>
          have := procInv_append_nonlow s pv hinv2 (convert_page_start e)
            (by intro u hu
                simp only [convert_page_start, List.mem_singleton] at hu
                subst hu
                simp [isLowPriorityType])
            (List.pairwise_singleton _ _)
          simp only [dispatchElement, he]
          obtain ⟨g1, g2, g3, _⟩ := this
          exact ⟨g1, g2, g3, e, rfl, heq⟩
        | selectionMark =>
          simp only [dispatchElement, he]
          exact ⟨hI1, hI2, hI3, cpi, hcpi, hcpv⟩
        | genericDocument =>
          simp only [dispatchElement, he]
          exact ⟨hI1, hI2, hI3, cpi, hcpi, hcpv⟩
        | documentList =>
          simp only [dispatchElement, he]
          exact ⟨hI1, hI2, hI3, cpi, hcpi, hcpv⟩
        | table content =>
          simp only [dispatchElement, he]
          cases hcv : convert_text_element e content all_formulas
              all_barcodes with
          | error err => exact ⟨hI1, hI2, hI3, cpi, hcpi, hcpv⟩
          | ok units =>
            exact procInv_dispatch_claiming s e pv hinv2 heq units
              (convert_text_element_units e content _ _ units hcv)
              (convert_text_element_length e content _ _ units hcv)
              (he ▸ hnoskip)
        | figure content =>
          simp only [dispatchElement, he]
          cases hcv : convert_text_element e content all_formulas
              all_barcodes with
          | error err => exact ⟨hI1, hI2, hI3, cpi, hcpi, hcpv⟩
          | ok units =>
            exact procInv_dispatch_claiming s e pv hinv2 heq units
              (convert_text_element_units e content _ _ units hcv)
              (convert_text_element_length e content _ _ units hcv)
              (he ▸ hnoskip)
        | paragraph content =>
          simp only [dispatchElement, he]
          cases hcv : convert_text_element e content all_formulas
              all_barcodes with
          | error err => exact ⟨hI1, hI2, hI3, cpi, hcpi, hcpv⟩
          | ok units =>
            exact procInv_dispatch_claiming s e pv hinv2 heq units
              (convert_text_element_units e content _ _ units hcv)
              (convert_text_element_length e content _ _ units hcv)
              (he ▸ hnoskip)
        | line content =>
          simp only [dispatchElement, he]
          cases hcv : convert_text_element e content all_formulas
              all_barcodes with
          | error err => exact ⟨hI1, hI2, hI3, cpi, hcpi, hcpv⟩
          | ok units =>
            exact procInv_dispatch_claiming s e pv hinv2 heq units
              (convert_text_element_units e content _ _ units hcv)
              (convert_text_element_length e content _ _ units hcv)
              (he ▸ hnoskip)
        | word content =>
          simp only [dispatchElement, he]
          cases hcv : convert_text_element e content all_formulas
              all_barcodes with
          | error err => exact ⟨hI1, hI2, hI3, cpi, hcpi, hcpv⟩
          | ok units =>
            exact procInv_dispatch_claiming s e pv hinv2 heq units
              (convert_text_element_units e content _ _ units hcv)
              (convert_text_element_length e content _ _ units hcv)
              (he ▸ hnoskip)
        | keyValuePair kc ks vc vs =>
          simp only [dispatchElement, he]
          cases hcv : convert_kv_pair e kc ks vc vs all_formulas
              all_barcodes with
          | error err => exact ⟨hI1, hI2, hI3, cpi, hcpi, hcpv⟩
          | ok units =>
            refine procInv_dispatch_claiming s e pv hinv2 heq units ?_
              (convert_kv_pair_length e kc ks vc vs _ _ units hcv)
              (he ▸ hnoskip)
            intro u hu
            have := convert_kv_pair_units e kc ks vc vs _ _ units hcv u hu
            exact ⟨this.1, this.2.1, by rw [he]; exact this.2.2⟩
      · -- new page group: the element is a page element and the transition
        -- fires, pruning the claimed spans
        have hept : e.element.elType = .page := hpage (by
          intro hcon
          exact heq (by injection hcon with h2; exact h2.symm))
        have hlt : pv < e.start_page_number := by
          rcases lt_or_eq_of_le hlepv with h1 | h1
          · exact h1
          · exact absurd h1.symm heq
        have htr : applyPageTransition s e =
            { s with
              full_output_list := s.full_output_list ++ convert_page_end cpi,
              current_page_priority_spans :=
                s.current_page_priority_spans.filter fun span =>
                  (document_span_to_span_bounds span).offset >
                    cpi.full_span_bounds.endOffset } := by
          simp only [applyPageTransition, hcpi]
          rw [if_pos (by rw [hcpv]; omega)]
        rw [htr]
        cases he : e.element <;> rw [he] at hept <;>
          simp only [DIElement.elType] at hept <;> try cases hept
        rename_i pn
        simp only [dispatchElement, he]
        refine ⟨?_, ?_, ?_, e, rfl, rfl⟩
        · intro u hu hlow
          simp only [List.append_assoc, List.mem_append] at hu
          rcases hu with hmem | hmem
          · have := hI1 u hmem hlow
            omega
          · rcases hmem with hmem | hmem
            · simp only [convert_page_end, List.mem_singleton] at hmem
              subst hmem
              simp [isLowPriorityType] at hlow
            · simp only [convert_page_start, List.mem_singleton] at hmem
              subst hmem
              simp [isLowPriorityType] at hlow
        · intro u hu hlow hup
          simp only [List.append_assoc, List.mem_append] at hu
          rcases hu with hmem | hmem
          · have := hI1 u hmem hlow
            omega
          · rcases hmem with hmem | hmem
            · simp only [convert_page_end, List.mem_singleton] at hmem
              subst hmem
              simp [isLowPriorityType] at hlow
            · simp only [convert_page_start, List.mem_singleton] at hmem
              subst hmem
              simp [isLowPriorityType] at hlow
        · rw [List.append_assoc]
          apply pairwise_goodPair_append_nonlow _ _ hI3
          · intro u hu
            rcases List.mem_append.mp hu with hmem | hmem
            · simp only [convert_page_end, List.mem_singleton] at hmem
              subst hmem
              simp [isLowPriorityType]
            · simp only [convert_page_start, List.mem_singleton] at hmem
              subst hmem
              simp [isLowPriorityType]
          · apply pairwise_goodPair_append_nonlow
            · exact List.pairwise_singleton _ _
            · intro u hu
              simp only [convert_page_start, List.mem_singleton] at hu
              subst hu
              simp [isLowPriorityType]
            · exact List.pairwise_singleton _ _

/-- A run of the element loop that returns normally keeps the emitted units
pairwise good, starting from any state satisfying the invariant for the list
shape hypotheses. -/
theorem processLoop_goodPairs (all_formulas : List DIFormula)
    (all_barcodes : List DIBarcode) (on_error : OnError)
    (break_after_element_idx : Option Nat) :
    ∀ (elems : List ElementInfo) (s : ProcState) (p : Option Int)
      (element_idx : Nat) (s2 : ProcState),
      ProcInv s p →
      (∀ e ∈ elems, ∀ pv, p = some pv → pv ≤ e.start_page_number) →
      SortedByStartPage elems →
      pageHeadedGroups p elems = true →
      processLoop all_formulas all_barcodes on_error break_after_element_idx
        s elems element_idx = .ok s2 →
      s2.full_output_list.Pairwise GoodPair := by
  intro elems
  induction elems with
  | nil =>
    intro s p idx s2 hinv _ _ _ hloop
    simp only [processLoop] at hloop
    injection hloop with hs2
    subst hs2
    cases p with
    | none =>
      have : s = initProcState := hinv
      rw [this]
      exact List.Pairwise.nil
    | some pv => exact hinv.2.2.1
  | cons e rest ih =>
    intro s p idx s2 hinv hle hsorted hgroups hloop
    simp only [pageHeadedGroups, Bool.and_eq_true, Bool.or_eq_true,
      decide_eq_true_eq] at hgroups
    obtain ⟨hhead, htail⟩ := hgroups
    have hpage : p ≠ some e.start_page_number →
        e.element.elType = DIElementType.page := by
      intro hne
      rcases hhead with h1 | h1
      · exact absurd h1 hne
      · exact h1
    have hstep := procInv_step all_formulas all_barcodes s e p hinv
      (fun pv hp => hle e (List.mem_cons_self _ _) pv hp) hpage
    rw [SortedByStartPage, List.pairwise_cons] at hsorted
    obtain ⟨hhd, htl⟩ := hsorted
    have hle2 : ∀ x ∈ rest, ∀ pv,
        (some e.start_page_number : Option Int) = some pv →
        pv ≤ x.start_page_number := by
      intro x hx pv hpv
      injection hpv with h2
      exact h2 ▸ hhd x hx
    simp only [processLoop] at hloop
    cases herr : (processOneElement all_formulas all_barcodes s e).err with
    | some err =>
      rw [herr] at hloop
      dsimp only at hloop
      cases on_error with
      | raise => cases hloop
      | ignore =>
        exact ih _ (some e.start_page_number) (idx + 1) s2 hstep hle2 htl
          htail hloop
    | none =>
      rw [herr] at hloop
      dsimp only at hloop
      cases break_after_element_idx with
      | some b =>
        dsimp only at hloop
        by_cases hb : ((processOneElement all_formulas all_barcodes
            s e).reached_break_check && decide (idx > b)) = true
        · rw [if_pos hb] at hloop
          injection hloop with hs2
          subst hs2
          exact hstep.2.2.1
        · rw [if_neg hb] at hloop
          exact ih _ (some e.start_page_number) (idx + 1) s2 hstep hle2 htl
            htail hloop
      | none =>
        exact ih _ (some e.start_page_number) (idx + 1) s2 hstep hle2 htl
          htail hloop

/-- C1 (amended): the skip check suppresses containment, not overlap, and
only relative to spans claimed on the active page.  For every ordered element
list that is weakly sorted by start page and in which every start-page group
opens with its Page element (the shape the ordering produces for consistent
documents), a completed processing pass never emits a low-priority unit
(Paragraph, Line, Word, KeyValuePair) one of whose spans is contained —
`is_span_in_span` — in any span of an earlier emitted low-priority unit with
the same start page.  In particular, two same-page single-span low-priority
units never have nested or equal spans. -/
theorem C1_amended_no_contained_low_priority_units
    (all_formulas : List DIFormula) (all_barcodes : List DIBarcode)
    (on_error : OnError) (break_after_element_idx : Option Nat)
    (ordered : List ElementInfo) (out : List OutputUnit)
    (hsorted : SortedByStartPage ordered)
    (hgroups : pageHeadedGroups none ordered = true)
    (hok : process_elements all_formulas all_barcodes on_error
      break_after_element_idx ordered = .ok out) :
    out.Pairwise GoodPair := by
  rw [process_elements] at hok
  cases hloop : processLoop all_formulas all_barcodes on_error
      break_after_element_idx initProcState ordered 0 with
  | error err => rw [hloop] at hok; cases hok
  | ok s =>
    rw [hloop] at hok
    dsimp only at hok
    have hpw := processLoop_goodPairs all_formulas all_barcodes on_error
      break_after_element_idx ordered initProcState none 0 s rfl
      (by intro _ _ _ hp; cases hp) hsorted hgroups hloop
    cases hcp : s.current_page_info with
    | none =>
      rw [hcp] at hok
      injection hok with hout
      subst hout
      exact hpw
    | some cur =>
      rw [hcp] at hok
      injection hok with hout
      subst hout
      apply pairwise_goodPair_append_nonlow _ _ hpw
      · intro u hu
        simp only [convert_page_end, List.mem_singleton] at hu
        subst hu
        simp [isLowPriorityType]
      · exact List.pairwise_singleton _ _

/-- Witness for C1 (amended) on the concrete three-element document of the
counterexample: the hypotheses hold and the four emitted units are pairwise
good (the overlapping paragraph spans are not nested). -/
theorem C1_amended_no_contained_low_priority_units_witness :
    SortedByStartPage
      [⟨"/pages/0", .page 1, ⟨0, 100⟩, [⟨0, 100⟩], 1, none⟩,
       ⟨"/paragraphs/0", .paragraph "hello", ⟨0, 10⟩, [⟨0, 10⟩], 1, none⟩,
       ⟨"/paragraphs/1", .paragraph "world", ⟨5, 15⟩, [⟨5, 10⟩], 1, none⟩] ∧
    pageHeadedGroups none
      [⟨"/pages/0", .page 1, ⟨0, 100⟩, [⟨0, 100⟩], 1, none⟩,
       ⟨"/paragraphs/0", .paragraph "hello", ⟨0, 10⟩, [⟨0, 10⟩], 1, none⟩,
       ⟨"/paragraphs/1", .paragraph "world", ⟨5, 15⟩, [⟨5, 10⟩], 1, none⟩] =
      true ∧
    List.Pairwise GoodPair
      [⟨"/pages/0", .page, [⟨0, 100⟩], 1, "", some "start"⟩,
       ⟨"/paragraphs/0", .paragraph, [⟨0, 10⟩], 1, "hello", none⟩,
       ⟨"/paragraphs/1", .paragraph, [⟨5, 10⟩], 1, "world", none⟩,
       ⟨"/pages/0", .page, [⟨0, 100⟩], 1, "", some "end"⟩] :=
  ⟨by decide, by decide,
    C1_amended_no_contained_low_priority_units [] [] .ignore none
      [⟨"/pages/0", .page 1, ⟨0, 100⟩, [⟨0, 100⟩], 1, none⟩,
       ⟨"/paragraphs/0", .paragraph "hello", ⟨0, 10⟩, [⟨0, 10⟩], 1, none⟩,
       ⟨"/paragraphs/1", .paragraph "world", ⟨5, 15⟩, [⟨5, 10⟩], 1, none⟩]
      [⟨"/pages/0", .page, [⟨0, 100⟩], 1, "", some "start"⟩,
       ⟨"/paragraphs/0", .paragraph, [⟨0, 10⟩], 1, "hello", none⟩,
       ⟨"/paragraphs/1", .paragraph, [⟨5, 10⟩], 1, "world", none⟩,
       ⟨"/pages/0", .page, [⟨0, 100⟩], 1, "", some "end"⟩]
      (by decide) (by decide) rfl⟩

end SlmKb
